import Mathlib

/-!
Verification of the curasync CLI (a Bun/TypeScript script that wraps git
around the Cura configuration directory).

The script is embedded shallowly: every observable effect of the program
(console output, prompt display, subprocess invocation, file write, the
post-kill pause) is recorded as an `Event` in a trace, and the run ends in an
`Outcome` (an explicit `process.exit`, an uncaught thrown error, or blocking
forever on terminal input once the finite stdin script is exhausted).  The
environment the script observes — command-line arguments, the lines typed on
stdin, the result of `pgrep UltiMaker-Cura`, the exit codes of `kill` and of
`git diff-index`, the filesystem preconditions checked at startup — is
packaged in a `World` value, so a run of the program is the pure function
`runProgram : World → Run`.
-/

namespace Curasync

/-- The two answers the yes/no prompt accepts. -/
inductive YN
  | y
  | n
  deriving DecidableEq, Repr

/-- Observable effects of one run of the script, in order.
`exec cmd args cwd` is an `execFileSync` subprocess invocation; `pgrep`
records the companion-process lookup (`some none` = not running, `some
(some pid)` = found, `none` = the lookup failed); `kill pid ok` records the
`kill` shell-out and whether it exited 0; `dirtyCheck c` records the
`git diff-index --exit-code HEAD` shell-out and its exit code;
`writeFile` records `fs.writeFileSync`. -/
inductive Event
  | log (s : String)
  | err (s : String)
  | question (s : String)
  | exec (cmd : String) (args : List String) (cwd : Option String)
  | pgrep (result : Option (Option Nat))
  | kill (pid : Nat) (ok : Bool)
  | dirtyCheck (code : Nat)
  | sleep (ms : Nat)
  | writeFile (p : String) (content : String)
  deriving DecidableEq, Repr

/-- How a run ends: an explicit `process.exit(code)`, an uncaught thrown
error (the Bun runtime then prints the error with a stack trace and the
process dies with a nonzero status), or blocked forever at a prompt. -/
inductive Outcome
  | exit (code : Nat)
  | thrown (msg : String)
  | blocked
  deriving DecidableEq, Repr

/-- A completed run: its event trace and how it ended. -/
structure Run where
  trace : List Event
  outcome : Outcome
  deriving DecidableEq, Repr

/-- Mutable environment state threaded through a run: the remaining stdin
lines and the remaining oracle of `execFileSync` results (`[]` means every
remaining subprocess succeeds). -/
structure St where
  stdin : List String
  oks : List Bool
  deriving DecidableEq, Repr

/-- Result of a program fragment: either it falls through (`ok`) with its
trace, the updated state and a value, or it halts the whole process. -/
inductive Res (α : Type)
  | ok (tr : List Event) (s : St) (v : α)
  | halt (tr : List Event) (o : Outcome)
  deriving DecidableEq, Repr

/-- Prepend already-emitted events to a fragment result. -/
def Res.withTrace {α : Type} (tr : List Event) : Res α → Res α
  | .ok tr2 s v => .ok (tr ++ tr2) s v
  | .halt tr2 o => .halt (tr ++ tr2) o

/-- Sequence two fragments, accumulating traces; a halt short-circuits. -/
def Res.bind {α β : Type} : Res α → (St → α → Res β) → Res β
  | .ok tr s v, f => Res.withTrace tr (f s v)
  | .halt tr o, _ => .halt tr o

/-- The trace of a fragment result, whichever way it ended. -/
def Res.trace {α : Type} : Res α → List Event
  | .ok tr _ _ => tr
  | .halt tr _ => tr

@[simp] theorem Res.withTrace_ok {α : Type} (tr tr2 : List Event) (s : St) (v : α) :
    Res.withTrace tr (.ok tr2 s v) = .ok (tr ++ tr2) s v := rfl

@[simp] theorem Res.withTrace_halt {α : Type} (tr tr2 : List Event) (o : Outcome) :
    Res.withTrace tr (.halt tr2 o : Res α) = .halt (tr ++ tr2) o := rfl

@[simp] theorem Res.bind_ok {α β : Type} (tr : List Event) (s : St) (v : α)
    (f : St → α → Res β) : Res.bind (.ok tr s v) f = Res.withTrace tr (f s v) := rfl

@[simp] theorem Res.bind_halt {α β : Type} (tr : List Event) (o : Outcome)
    (f : St → α → Res β) : Res.bind (.halt tr o) f = .halt tr o := rfl

/-- The three operating systems `getOperatingSystem` recognizes (any other
platform throws at startup and is outside this model). -/
inductive OSType
  | macOS
  | windows
  | linux
  deriving DecidableEq, Repr

/-- Embeds `getOperatingSystem`'s return value. -/
def osName : OSType → String
  | .macOS => "MacOS"
  | .windows => "Windows"
  | .linux => "Linux"

/-- Embeds `getDefaultCuraDirectory`: the fixed per-OS path template,
parameterized by the current user name. -/
def getDefaultCuraDirectory (os : OSType) (user : String) : String :=
  match os with
  | .macOS => "/Users/" ++ user ++ "/Library/Application Support/cura"
  | .windows => "C:\\Users\\" ++ user ++ "\\AppData\\Roaming\\cura"
  | .linux => "/home/" ++ user ++ "/.local/share/cura"

/-- Result of the `pgrep UltiMaker-Cura` shell-out: exit code and the raw
stdout/stderr contents. -/
structure PgrepRes where
  exitCode : Nat
  stdout : String
  stderr : String
  deriving DecidableEq, Repr

/-- The environment of one run.  `gitStatusOk` is whether `git status`
succeeds in the cura directory (the script's `isGitInitialized`);
`dirtyExit` is the exit code of `git diff-index --exit-code HEAD`;
`diffOutput` is what `git diff --staged --stat` prints; `now` is
`Date.now()` (milliseconds since the epoch); `execOks` is the oracle of
outcomes for the remaining unchecked `execFileSync` calls (`[]` = all
succeed). -/
structure World where
  argv : List String
  stdin : List String
  osType : OSType
  username : String
  curaDirExists : Bool
  gitInstalled : Bool
  curaVersionDirExists : Bool
  gitStatusOk : Bool
  pgrepRes : PgrepRes
  killOk : Bool
  dirtyExit : Nat
  diffOutput : String
  now : Nat
  execOks : List Bool
  deriving DecidableEq, Repr

/-- The script's module-level `curaDirectory` constant. -/
def curaDir (w : World) : String := getDefaultCuraDirectory w.osType w.username

/-- The literal `.gitignore` contents the script writes. -/
def gitignoreContent : String :=
  ".DS_Store\n**/.DS_Store\n5.6/cache\n5.6/cura.log\n5.6/cura.log.*"

/-- Embeds `printHelp`'s output. -/
def helpText : String :=
  "curasync\n\thelp\tprint help screen\n\tinit <repo_url>\tinitialize curasync in your cura folder and push to <repo_url>\n\tclone <repo_url>\tclone a curasync remote into your cura directory\n\tpull\tgrab changes from remote\n\tpush\tpush local changes to remote\n\tcwd\tprint the cura directory"

/-- Embeds `printInfo`'s output. -/
def infoText (w : World) : String :=
  "curasync (v0) — lunaroyster\n    OS: " ++ osName w.osType ++
    "\n    Cura Directory: " ++ curaDir w ++
    "\n    isInitialized?: " ++ (if w.gitStatusOk then "true" else "false")

/-- Model of JavaScript `String.prototype.trim`: drop whitespace from both
ends.  (Implemented over the character list so that proofs can evaluate it;
`String.trim` itself is defined by well-founded recursion and does not
reduce in the kernel.) -/
def jsTrim (s : String) : String :=
  String.mk (((s.toList.dropWhile Char.isWhitespace).reverse.dropWhile Char.isWhitespace).reverse)

/-- Model of JavaScript `String.prototype.toLowerCase` (ASCII range, which
covers the `y`/`n` answers this program compares against). -/
def jsLower (s : String) : String :=
  String.mk (s.toList.map Char.toLower)

/-- Whether the string begins with `-` (evaluable replacement for
`String.startsWith "-"`). -/
def beginsDash (s : String) : Bool :=
  match s.toList with
  | c :: _ => c == '-'
  | [] => false

/-- The numeric value of a digit string. -/
def digitsToNat (cs : List Char) : Nat :=
  cs.foldl (fun acc c => acc * 10 + (c.toNat - 48)) 0

/-- Characters allowed in a URL scheme after the first letter. -/
def isSchemeChar (c : Char) : Bool :=
  c.isAlphanum || c == '+' || c == '-' || c == '.'

/-- The WHATWG special schemes (other than `file`) whose URLs require a
nonempty host. -/
def specialNeedsHost (scheme : String) : Bool :=
  scheme == "http" || scheme == "https" || scheme == "ws" || scheme == "wss" || scheme == "ftp"

/-- Embeds `isValidUrl`, i.e. whether `new URL(url)` succeeds.  Model of the
WHATWG URL parser restricted to what decides acceptance: the string must
start with a scheme (a letter followed by letters, digits, `+`, `-`, `.`)
and a colon; for the special schemes that require a host there must be some
character after the colon besides slashes.  (Finer WHATWG rejections, such
as forbidden characters inside a host, are not modelled; the URLs this tool
meets are ordinary repository URLs.) -/
def isValidUrl (u : String) : Bool :=
  let cs := u.toList
  let scheme := cs.takeWhile (fun c => c ≠ ':')
  let rest := cs.dropWhile (fun c => c ≠ ':')
  match rest, scheme with
  | [], _ => false
  | _ :: _, [] => false
  | _ :: after, c :: tl =>
    (c.isAlpha && tl.all isSchemeChar) &&
    (!specialNeedsHost (String.mk ((c :: tl).map Char.toLower)) || after.any (fun a => a ≠ '/'))

/-- Model of JavaScript `Number(s)` on an already-trimmed `pgrep` output
(digits and interior line breaks): the empty string converts to `0`, a pure
digit string to its value, anything else (such as two newline-separated
pids) to NaN (`none`). -/
def jsNumber (s : String) : Option Nat :=
  if s.toList = [] then some 0
  else if s.toList.all Char.isDigit then some (digitsToNat s.toList)
  else none

/-- Model of Node/Bun `util.parseArgs` with `strict: true`, no declared
options and `allowPositionals: true`: returns the positionals, or `none`
when parsing throws on an option-like token.  `--` terminates option
parsing (everything after it is positional), a lone `-` is a positional,
and any other token starting with `-` is an unknown option and throws. -/
def parseArgsStrict : List String → Option (List String)
  | [] => some []
  | a :: rest =>
    if a = "--" then some rest
    else if a = "-" then (parseArgsStrict rest).map (fun ps => a :: ps)
    else if beginsDash a then none
    else (parseArgsStrict rest).map (fun ps => a :: ps)

/-- The prompt `confirm` displays: the question plus the default-answer hint. -/
def qPrompt (q : String) (d : Option YN) : String :=
  q ++ " " ++ (match d with
    | some YN.y => "(Y/n)"
    | some YN.n => "(y/N)"
    | none => "(y/n)") ++ " "

/-- Embeds the loop of `confirm(q, defaultAnswer)` over a finite stdin
script.  Each consumed line is trimmed and lowercased; `y`/`n` is returned;
an empty line returns `defaultAnswer ?? null` (the inner `Option`); any
other line repeats the prompt.  The outer `Option` is `none` when stdin is
exhausted (the real process would block forever at the prompt).  Returns
(events, remaining stdin, answer). -/
def confirmGo (q : String) (d : Option YN) : List String → List Event × List String × Option (Option YN)
  | [] => ([Event.question (qPrompt q d)], [], none)
  | line :: rest =>
    let l := jsLower (jsTrim line)
    if l = "y" then ([Event.question (qPrompt q d)], rest, some (some YN.y))
    else if l = "n" then ([Event.question (qPrompt q d)], rest, some (some YN.n))
    else if l = "" then ([Event.question (qPrompt q d)], rest, some d)
    else
      let r := confirmGo q d rest
      (Event.question (qPrompt q d) :: r.1, r.2.1, r.2.2)

/-- `confirm` lifted to a program fragment. -/
def confirmR (q : String) (d : Option YN) (s : St) : Res (Option YN) :=
  match confirmGo q d s.stdin with
  | (tr, rest, some a) => .ok tr ⟨rest, s.oks⟩ a
  | (tr, _, none) => .halt tr .blocked

/-- The prompt `ask` displays. -/
def askPrompt (q : String) (d : Option String) : String :=
  q ++ (match d with | some a => " (" ++ a ++ ")" | none => "") ++ " "

/-- Embeds the loop of `ask(q, defaultAnswer)`: an empty line with no
default repeats the prompt, an empty line with a default returns the
default, anything else is returned verbatim (no trimming). -/
def askGo (q : String) (d : Option String) : List String → List Event × List String × Option String
  | [] => ([Event.question (askPrompt q d)], [], none)
  | line :: rest =>
    if line = "" then
      match d with
      | some a => ([Event.question (askPrompt q d)], rest, some a)
      | none =>
        let r := askGo q d rest
        (Event.question (askPrompt q d) :: r.1, r.2.1, r.2.2)
    else ([Event.question (askPrompt q d)], rest, some line)

/-- `ask` lifted to a program fragment. -/
def askR (q : String) (d : Option String) (s : St) : Res String :=
  match askGo q d s.stdin with
  | (tr, rest, some a) => .ok tr ⟨rest, s.oks⟩ a
  | (tr, _, none) => .halt tr .blocked

/-- An `execFileSync` call whose result the script does not inspect
(it throws on nonzero exit).  Consumes one entry of the `execOks` oracle;
an empty oracle means success. -/
def execFS (cmd : String) (args : List String) (cwd : Option String) (s : St) : Res Unit :=
  match s.oks with
  | [] => .ok [.exec cmd args cwd] s ()
  | b :: rest =>
    if b then .ok [.exec cmd args cwd] ⟨s.stdin, rest⟩ ()
    else .halt [.exec cmd args cwd] (.thrown (cmd ++ " failed"))

/-- Embeds `getCuraPid`: `pgrep` exit 1 with no output at all means not
running (`none`); exit 0 parses the trimmed stdout with `Number` and throws
on NaN; any other exit logs the result object and throws. -/
def getCuraPidR (r : PgrepRes) (s : St) : Res (Option Nat) :=
  if r.exitCode = 1 ∧ r.stderr.length = 0 ∧ r.stdout.length = 0 then
    .ok [Event.pgrep (some none)] s none
  else if r.exitCode = 0 then
    match jsNumber (jsTrim r.stdout) with
    | some n => .ok [Event.pgrep (some (some n))] s (some n)
    | none => .halt [Event.pgrep none] (.thrown "No process number returned")
  else
    .halt [Event.pgrep none, Event.log "pgrep result"] (.thrown "pgrep Cura returned something weird")

/-- Embeds `killProcess`: shell out to `kill`, throwing if it exits nonzero. -/
def killProcessR (killOk : Bool) (pid : Nat) (s : St) : Res Unit :=
  if killOk then .ok [Event.kill pid true] s ()
  else .halt [Event.kill pid false] (.thrown "kill failed")

/-- The kill-confirmation question of `confirmAndKillCura`. -/
def killQ : String :=
  "Cura is running. To proceed safely, you need to exit out of cura. Kill cura?"

/-- Embeds `confirmAndKillCura`: trivially true when the companion process
is not found; otherwise prompts (default yes), returns false on any answer
other than `y`, else kills the process and returns true. -/
def confirmAndKillCura (w : World) (s : St) : Res Bool :=
  Res.bind (getCuraPidR w.pgrepRes s) (fun s1 pid =>
    match pid with
    | none => .ok [] s1 true
    | some p =>
      Res.bind (confirmR killQ (some YN.y) s1) (fun s2 a =>
        if a = some YN.y then
          Res.bind (killProcessR w.killOk p s2) (fun s3 _ => .ok [] s3 true)
        else .ok [] s2 false))

/-- Embeds `initializeRepo` (name shortened): kill-guard, then conditional
removal of existing `.git`, `git init`, `remote add`, `add .`, the tagged
init commit, `push -u origin main`, and finally the `.gitignore` write. -/
def initRepo (w : World) (url : String) (s : St) : Res Unit :=
  Res.bind (confirmAndKillCura w s) (fun s1 killRes =>
    if killRes then
      Res.bind (if w.gitStatusOk then execFS "rm" ["-rf", ".git"] (some (curaDir w)) s1
                else .ok [] s1 ()) (fun s2 _ =>
      Res.bind (execFS "git" ["init"] (some (curaDir w)) s2) (fun s3 _ =>
      Res.bind (execFS "git" ["remote", "add", "origin", url] (some (curaDir w)) s3) (fun s4 _ =>
      Res.bind (execFS "git" ["add", "."] (some (curaDir w)) s4) (fun s5 _ =>
      Res.bind (execFS "git" ["commit", "-m", "[curasync] init"] (some (curaDir w)) s5) (fun s6 _ =>
      Res.bind (execFS "git" ["push", "-u", "origin", "main"] (some (curaDir w)) s6) (fun s7 _ =>
      .ok [Event.writeFile (curaDir w ++ "/.gitignore") gitignoreContent] s7 ()))))))
    else .halt [] (.thrown "Exiting: cura is still running"))

/-- The destructive-intent question of the `init` subcommand. -/
def initQ : String :=
  "This command will turn your cura configuration folder into a git repo and push it into a blank repository. Use this if you want to share your config with others. Proceed?"

/-- The overwrite question `init` asks when the folder is already a repo. -/
def overwriteQ : String :=
  "Looks like the cura folder is already initialized as a repo. Do you want to go ahead anyway? This will overwrite the repo"

/-- The destructive-intent question of the `clone` subcommand. -/
def cloneQ : String :=
  "This will clone the configuration from a given, existing repo into your cura directory. (Your current configuration will be backed up). Proceed?"

/-- The kill question of the `push` subcommand. -/
def pushKillQ : String :=
  "Cura is currently running. Cura often saves configuration on exit. Would you like to quit Cura?"

/-- The commit-message question of the `push` subcommand. -/
def commitMsgQ : String := "Enter a message describing what you changed:"

/-- The parent directory of a POSIX path (everything before the last `/`). -/
def splitOnSlash : List Char → List (List Char)
  | [] => [[]]
  | c :: rest =>
    let r := splitOnSlash rest
    if c = '/' then [] :: r
    else
      match r with
      | [] => [[c]]
      | g :: gs => (c :: g) :: gs

/-- Join path components with `/`. -/
def joinSlash : List (List Char) → List Char
  | [] => []
  | [g] => g
  | g :: gs => g ++ '/' :: joinSlash gs

def parentDir (p : String) : String :=
  String.mk (joinSlash (splitOnSlash p.toList).dropLast)

/-- Embeds `path.join(curaDirectory, "../cura_backup_" + Date.now())` after
normalization: the sibling path `<parent>/cura_backup_<timestamp>`.
(POSIX joining; the Windows backslash variant of `path.join` is not
modelled separately.) -/
def backupPath (cura : String) (now : Nat) : String :=
  parentDir cura ++ "/cura_backup_" ++ toString now

/-- The URL-validation-and-execute tail of the `init` branch: a missing
fourth positional behaves like an invalid URL, since `new URL(undefined)`
throws. -/
def initUrlStage (w : World) (p : List String) (s : St) : Res Unit :=
  match p.get? 3 with
  | some url =>
    if isValidUrl url then
      Res.bind (initRepo w url s) (fun _ _ => .halt [] (.exit 0))
    else .halt [Event.err "Invalid URL. Please enter a valid URL."] (.exit 1)
  | none => .halt [Event.err "Invalid URL. Please enter a valid URL."] (.exit 1)

/-- Embeds the `init` branch of `main`: intent confirmation (default no),
the extra overwrite confirmation when already initialized, URL validation,
then `initializeRepo` and exit 0. -/
def initBranch (w : World) (p : List String) (s : St) : Res Unit :=
  Res.bind (confirmR initQ (some YN.n) s) (fun s1 a =>
    if a = some YN.y then
      Res.bind (if w.gitStatusOk then
          Res.bind (confirmR overwriteQ (some YN.n) s1) (fun s2 b =>
            if b = some YN.y then .ok [] s2 () else .halt [] (.exit 1))
        else .ok [] s1 ()) (fun s2 _ => initUrlStage w p s2)
    else .halt [] (.exit 1))

/-- Embeds the `clone` branch of `main`: URL presence (the empty string is
falsy too) and validity checks, intent confirmation (default no), the
kill-guard, then backup by rename, recreation of an empty directory, and
`git clone` into it. -/
def cloneBranch (w : World) (p : List String) (s : St) : Res Unit :=
  match p.get? 3 with
  | none => .halt [Event.err "No URL provided. Invocation: `curasync clone [repo url]`"] (.exit 1)
  | some url =>
    if url = "" then
      .halt [Event.err "No URL provided. Invocation: `curasync clone [repo url]`"] (.exit 1)
    else if !isValidUrl url then
      .halt [Event.err ("Invalid URL provided for clone operation: " ++ url)] (.exit 1)
    else
      Res.bind (confirmR cloneQ (some YN.n) s) (fun s1 a =>
        if a = some YN.y then
          Res.bind (confirmAndKillCura w s1) (fun s2 killRes =>
            if killRes then
              Res.bind (.ok [Event.log "Backing up your current cura configuration..."] s2 ()) (fun s3 _ =>
              Res.bind (execFS "mv" [curaDir w, backupPath (curaDir w) w.now] none s3) (fun s4 _ =>
              Res.bind (execFS "mkdir" [curaDir w] none s4) (fun s5 _ =>
              Res.bind (.ok [Event.log "Cura folder has been backed up successfully.",
                             Event.log ("Cloning from " ++ url ++ "...")] s5 ()) (fun s6 _ =>
              Res.bind (execFS "git" ["clone", url, "."] (some (curaDir w)) s6) (fun _ _ =>
              .halt [Event.log "Clone operation completed successfully. Try opening cura"] (.exit 0))))))
            else .halt [] (.thrown "Exiting: cura is still running"))
        else .halt [] (.exit 1))

/-- JavaScript truthiness of the pid `getCuraPid` returned (`null` and `0`
are falsy). -/
def truthy : Option Nat → Bool
  | some n => n != 0
  | none => false

/-- Embeds the `push` branch of `main`: optional kill of a running Cura
(default yes, proceeding either way) followed by a one-second pause, the
dirty check (`git diff-index` exit code 1 means dirty), abort with exit 1
when clean, otherwise stage, show the staged diffstat, ask for a commit
message, commit with the `[curasync]` tag and push. -/
def pushBranch (w : World) (s : St) : Res Unit :=
  Res.bind (getCuraPidR w.pgrepRes s) (fun s1 pid =>
    Res.bind
      (if truthy pid then
        Res.bind (confirmR pushKillQ (some YN.y) s1) (fun s2 a =>
          if a = some YN.y then
            Res.bind (killProcessR w.killOk (pid.getD 0) s2) (fun s3 _ =>
              .ok [Event.sleep 1000] s3 ())
          else .ok [] s2 ())
      else .ok [] s1 ())
      (fun s2 _ =>
        Res.bind (.ok [Event.dirtyCheck w.dirtyExit] s2 ()) (fun s3 _ =>
          if w.dirtyExit = 1 then
            Res.bind (.ok [Event.log "pushing config to origin"] s3 ()) (fun s4 _ =>
            Res.bind (execFS "git" ["add", "."] (some (curaDir w)) s4) (fun s5 _ =>
            Res.bind (execFS "git" ["diff", "--staged", "--stat"] (some (curaDir w)) s5) (fun s6 _ =>
            Res.bind (.ok [Event.log (jsTrim w.diffOutput)] s6 ()) (fun s7 _ =>
            Res.bind (askR commitMsgQ none s7) (fun s8 msg =>
            Res.bind (execFS "git" ["commit", "-m", "[curasync] " ++ msg] (some (curaDir w)) s8) (fun s9 _ =>
            Res.bind (execFS "git" ["push"] (some (curaDir w)) s9) (fun _ _ =>
              .halt [Event.log "pushed config to origin!"] (.exit 0))))))))
          else .halt [Event.err "Looks like there are no changes to push"] (.exit 1))))

/-- Embeds the subcommand dispatch of `main` (after the bare-invocation
banner case).  An out-of-range index behaves like JavaScript `undefined`. -/
def dispatch (w : World) (p : List String) (s : St) : Res Unit :=
  match p.get? 2 with
  | some cmd =>
    if cmd = "help" then .halt [Event.log helpText] (.exit 0)
    else if cmd = "init" then initBranch w p s
    else if cmd = "clone" then cloneBranch w p s
    else if cmd = "pull" then
      Res.bind (.ok [Event.log "pulling config from origin..."] s ()) (fun s1 _ =>
      Res.bind (execFS "git" ["pull"] (some (curaDir w)) s1) (fun _ _ =>
      .halt [Event.log "pulled config from origin!"] (.exit 0)))
    else if cmd = "push" then pushBranch w s
    else if cmd = "cwd" then .halt [Event.log (curaDir w)] (.exit 0)
    else .halt [Event.err ("unrecognized command " ++ cmd), Event.log helpText] (.exit 1)
  | none => .halt [Event.err "unrecognized command undefined", Event.log helpText] (.exit 1)

/-- Embeds `main`: strict argument parsing of `Bun.argv` (the runtime and
script paths are the first two positionals), the bare-invocation
banner+help case, then dispatch. -/
def mainFn (w : World) (s : St) : Res Unit :=
  match parseArgsStrict w.argv with
  | none => .halt [] (.thrown "parseArgs: unknown option")
  | some p =>
    if p.length = 2 then .halt [Event.log (infoText w), Event.log helpText] (.exit 0)
    else dispatch w p s

/-- Embeds the module-level startup checks, run on every invocation before
`main`: the cura directory must exist, `git --version` must succeed, the
`5.6` sub-version directory must exist, and `git status` is probed (its
success is the script's `isGitInitialized`, non-fatal either way). -/
def startup (w : World) (s : St) : Res Unit :=
  if !w.curaDirExists then
    .halt [] (.thrown "curasync did not find a cura directory. Try running cura and try again?")
  else if !w.gitInstalled then
    .halt [Event.exec "git" ["--version"] none]
      (.thrown "Git is not installed on this system. Please install Git and try again.")
  else if !w.curaVersionDirExists then
    .halt [Event.exec "git" ["--version"] none]
      (.thrown "curasync did not find a cura/5.6 directory. curasync only supports 5.6 (you may need to upgrade curasync)")
  else
    .ok [Event.exec "git" ["--version"] none, Event.exec "git" ["status"] (some (curaDir w))] s ()

/-- Close off a fragment into a finished run (`main` ends every branch with
`process.exit`, so the `ok` case is unreachable for the whole program). -/
def Res.toRun : Res Unit → Run
  | .ok tr _ _ => ⟨tr, .exit 0⟩
  | .halt tr o => ⟨tr, o⟩

/-- The whole script as a pure function of its environment. -/
def runProgram (w : World) : Run :=
  (Res.bind (startup w ⟨w.stdin, w.execOks⟩) (fun s _ => mainFn w s)).toRun

/-! ## Trace predicates -/

/-- The event is a prompt display. -/
def isQuestion : Event → Bool
  | .question _ => true
  | _ => false

/-- The event authorizes directory manipulation: the companion-process
lookup found nothing, or the companion process was successfully killed. -/
def isAuthEvent : Event → Bool
  | .pgrep (some none) => true
  | .kill _ true => true
  | _ => false

/-- The event mutates the configuration directory or its version-control
state: the `rm`/`mv`/`mkdir` shell-outs, any mutating git subcommand, or a
file write.  (`git --version`, `git status` and the diff probes are
read-only and excluded.) -/
def isMutation : Event → Bool
  | .exec c args _ =>
    c == "rm" || c == "mv" || c == "mkdir" ||
    (c == "git" && (args.head? == some "init" || args.head? == some "remote" ||
      args.head? == some "add" || args.head? == some "commit" ||
      args.head? == some "push" || args.head? == some "clone" ||
      args.head? == some "pull"))
  | .writeFile _ _ => true
  | _ => false

/-- No event of the trace mutates the configuration directory. -/
def mutationFree (l : List Event) : Bool := l.all (fun e => !isMutation e)

/-- No event of the trace is a `git add`, `git commit` or `git push`
subprocess invocation. -/
def stageCommitPushFree (l : List Event) : Bool :=
  l.all (fun e =>
    match e with
    | .exec c args _ => !(c == "git" && (args.head? == some "add" ||
        args.head? == some "commit" || args.head? == some "push"))
    | _ => true)

/-- Every mutation event of the trace happens at a point where `auth`
already holds, where an authorization event (see `isAuthEvent`) switches
`auth` on for the remainder. -/
def guardedAux : Bool → List Event → Bool
  | _, [] => true
  | auth, e :: rest => (!isMutation e || auth) && guardedAux (auth || isAuthEvent e) rest

/-- Every mutation event of the trace is preceded by an authorization
event: a companion-process lookup that found nothing, or a successful kill. -/
def guarded (l : List Event) : Bool := guardedAux false l

/-! ## Helper lemmas -/

theorem guardedAux_true : ∀ l : List Event, guardedAux true l = true := by
  intro l
  induction l with
  | nil => rfl
  | cons e rest ih => simp [guardedAux, ih]

theorem guardedAux_append (a : Bool) (xs ys : List Event) :
    guardedAux a (xs ++ ys) =
      (guardedAux a xs && guardedAux (a || xs.any isAuthEvent) ys) := by
  induction xs generalizing a with
  | nil => simp [guardedAux]
  | cons e rest ih =>
    simp only [List.cons_append, guardedAux, List.any_cons, List.append_eq]
    rw [ih, Bool.and_assoc, Bool.or_assoc]

theorem guardedAux_of_mutationFree (a : Bool) :
    ∀ l : List Event, mutationFree l = true → guardedAux a l = true := by
  intro l
  induction l generalizing a with
  | nil => intro _; rfl
  | cons e rest ih =>
    intro h
    simp only [mutationFree, List.all_cons, Bool.and_eq_true] at h
    simp [guardedAux, h.1, ih, mutationFree, h.2]

theorem mutationFree_append (xs ys : List Event) :
    mutationFree (xs ++ ys) = (mutationFree xs && mutationFree ys) := by
  simp [mutationFree]

theorem scpFree_append (xs ys : List Event) :
    stageCommitPushFree (xs ++ ys) = (stageCommitPushFree xs && stageCommitPushFree ys) := by
  simp [stageCommitPushFree]

theorem questions_mutationFree {l : List Event} (h : l.all isQuestion = true) :
    mutationFree l = true := by
  simp only [List.all_eq_true] at h
  simp only [mutationFree, List.all_eq_true]
  intro e he
  have := h e he
  cases e <;> simp_all [isQuestion, isMutation]

theorem questions_scpFree {l : List Event} (h : l.all isQuestion = true) :
    stageCommitPushFree l = true := by
  simp only [List.all_eq_true] at h
  simp only [stageCommitPushFree, List.all_eq_true]
  intro e he
  have := h e he
  cases e <;> simp_all [isQuestion]

theorem questions_noAuth {l : List Event} (h : l.all isQuestion = true) :
    l.any isAuthEvent = false := by
  simp only [List.all_eq_true] at h
  simp only [List.any_eq_false]
  intro e he
  have := h e he
  cases e <;> simp_all [isQuestion, isAuthEvent]

theorem confirmGo_questions (q : String) (d : Option YN) :
    ∀ inp : List String, ((confirmGo q d inp).1).all isQuestion = true := by
  intro inp
  induction inp with
  | nil => rfl
  | cons line rest ih =>
    simp only [confirmGo]
    split
    · rfl
    · split
      · rfl
      · split
        · rfl
        · simpa [isQuestion] using ih

theorem askGo_questions (q : String) (d : Option String) :
    ∀ inp : List String, ((askGo q d inp).1).all isQuestion = true := by
  intro inp
  induction inp with
  | nil => rfl
  | cons line rest ih =>
    simp only [askGo]
    split
    · split
      · rfl
      · simpa [isQuestion] using ih
    · rfl

theorem Res.toRun_withTrace (tr : List Event) (r : Res Unit) :
    (Res.withTrace tr r).toRun = ⟨tr ++ r.toRun.trace, r.toRun.outcome⟩ := by
  cases r <;> rfl

theorem get?_two_ne_two {p : List String} {x : String} (h : p.get? 2 = some x) :
    p.length ≠ 2 := by
  intro hlen
  rw [List.get?_eq_none.mpr (by omega)] at h
  exact Option.noConfusion h

/-- `confirmR` in terms of `confirmGo`, answered case. -/
theorem confirmR_ok {q : String} {d : Option YN} {s : St} {tr : List Event}
    {rest : List String} {a : Option YN}
    (h : confirmGo q d s.stdin = (tr, rest, some a)) :
    confirmR q d s = .ok tr ⟨rest, s.oks⟩ a := by
  unfold confirmR
  rw [h]

/-- `confirmR` in terms of `confirmGo`, stdin-exhausted case. -/
theorem confirmR_blocked {q : String} {d : Option YN} {s : St} {tr : List Event}
    {rest : List String} (h : confirmGo q d s.stdin = (tr, rest, none)) :
    confirmR q d s = .halt tr .blocked := by
  unfold confirmR
  rw [h]

/-- `askR` in terms of `askGo`, answered case. -/
theorem askR_ok {q : String} {d : Option String} {s : St} {tr : List Event}
    {rest : List String} {a : String}
    (h : askGo q d s.stdin = (tr, rest, some a)) :
    askR q d s = .ok tr ⟨rest, s.oks⟩ a := by
  unfold askR
  rw [h]

/-- `askR` in terms of `askGo`, stdin-exhausted case. -/
theorem askR_blocked {q : String} {d : Option String} {s : St} {tr : List Event}
    {rest : List String} (h : askGo q d s.stdin = (tr, rest, none)) :
    askR q d s = .halt tr .blocked := by
  unfold askR
  rw [h]

/-- Case analysis of `getCuraPidR`. -/
theorem getCuraPidR_cases (r : PgrepRes) (s : St) :
    (getCuraPidR r s = .ok [Event.pgrep (some none)] s none) ∨
    (∃ n, getCuraPidR r s = .ok [Event.pgrep (some (some n))] s (some n)) ∨
    (∃ tr m, getCuraPidR r s = .halt tr (.thrown m) ∧ mutationFree tr = true ∧
      stageCommitPushFree tr = true) := by
  unfold getCuraPidR
  split
  · left; rfl
  · split
    · split
      · right; left; exact ⟨_, rfl⟩
      · right; right; exact ⟨_, _, rfl, by decide, by decide⟩
    · right; right; exact ⟨_, _, rfl, by decide, by decide⟩

/-- Case analysis of `confirmAndKillCura`: it either halts, or falls
through with `false`, with a mutation-free trace in both cases; or it
falls through with `true` and its trace contains an authorization event. -/
theorem cakc_cases (w : World) (s : St) :
    (∃ tr o, confirmAndKillCura w s = .halt tr o ∧ mutationFree tr = true) ∨
    (∃ tr s1, confirmAndKillCura w s = .ok tr s1 false ∧ mutationFree tr = true) ∨
    (∃ tr s1, confirmAndKillCura w s = .ok tr s1 true ∧ mutationFree tr = true ∧
      tr.any isAuthEvent = true) := by
  rcases getCuraPidR_cases w.pgrepRes s with h1 | ⟨n, h2⟩ | ⟨tr, m, h3, hm, _⟩
  · right; right
    refine ⟨[Event.pgrep (some none)], s, ?_, by decide, by decide⟩
    unfold confirmAndKillCura
    rw [h1]
    rfl
  · rcases hcg : confirmGo killQ (some YN.y) s.stdin with ⟨tr2, rest2, ans⟩
    have hq : tr2.all isQuestion = true := by
      have := confirmGo_questions killQ (some YN.y) s.stdin
      rw [hcg] at this
      exact this
    rcases ans with _ | av
    · left
      refine ⟨[Event.pgrep (some (some n))] ++ tr2, .blocked, ?_, ?_⟩
      · unfold confirmAndKillCura
        rw [h2]
        simp only [Res.bind_ok, Res.withTrace_ok, List.append_nil]
        rw [confirmR_blocked hcg]
        rfl
      · rw [mutationFree_append, questions_mutationFree hq]
        rfl
    · by_cases hy : av = some YN.y
      · subst hy
        by_cases hk : w.killOk
        · right; right
          refine ⟨[Event.pgrep (some (some n))] ++ tr2 ++ [Event.kill n true],
            ⟨rest2, s.oks⟩, ?_, ?_, ?_⟩
          · unfold confirmAndKillCura
            rw [h2]
            simp only [Res.bind_ok, Res.withTrace_ok, List.append_nil]
            rw [confirmR_ok hcg]
            simp only [Res.bind_ok, Res.withTrace_ok, if_pos rfl]
            unfold killProcessR
            rw [if_pos hk]
            simp
          · rw [mutationFree_append, mutationFree_append, questions_mutationFree hq]
            rfl
          · simp [isAuthEvent]
        · left
          refine ⟨[Event.pgrep (some (some n))] ++ tr2 ++ [Event.kill n false],
            .thrown "kill failed", ?_, ?_⟩
          · unfold confirmAndKillCura
            rw [h2]
            simp only [Res.bind_ok, Res.withTrace_ok, List.append_nil]
            rw [confirmR_ok hcg]
            simp only [Res.bind_ok, Res.withTrace_ok, if_pos rfl]
            unfold killProcessR
            rw [if_neg hk]
            simp
          · rw [mutationFree_append, mutationFree_append, questions_mutationFree hq]
            rfl
      · right; left
        refine ⟨[Event.pgrep (some (some n))] ++ tr2, ⟨rest2, s.oks⟩, ?_, ?_⟩
        · unfold confirmAndKillCura
          rw [h2]
          simp only [Res.bind_ok, Res.withTrace_ok, List.append_nil]
          rw [confirmR_ok hcg]
          simp only [Res.bind_ok, Res.withTrace_ok, if_neg hy]
          simp
        · rw [mutationFree_append, questions_mutationFree hq]
          rfl
  · left
    refine ⟨tr, .thrown m, ?_, hm⟩
    unfold confirmAndKillCura
    rw [h3]
    rfl

/-- When the three fatal startup checks pass, a run is the two startup git
probes followed by `main`. -/
theorem runProgram_eq (w : World) (hcd : w.curaDirExists = true)
    (hgi : w.gitInstalled = true) (hcv : w.curaVersionDirExists = true) :
    runProgram w =
      ⟨[Event.exec "git" ["--version"] none, Event.exec "git" ["status"] (some (curaDir w))] ++
         (mainFn w ⟨w.stdin, w.execOks⟩).toRun.trace,
       (mainFn w ⟨w.stdin, w.execOks⟩).toRun.outcome⟩ := by
  unfold runProgram startup
  simp only [hcd, hgi, hcv, Bool.not_true, Bool.false_eq_true, if_false, Res.bind_ok]
  rw [Res.toRun_withTrace]

/-- With a recognized third positional, `main` reaches the dispatcher. -/
theorem mainFn_dispatch (w : World) (p : List String) (x : String) (s : St)
    (hp : parseArgsStrict w.argv = some p) (hx : p.get? 2 = some x) :
    mainFn w s = dispatch w p s := by
  unfold mainFn
  simp only [hp]
  rw [if_neg (get?_two_ne_two hx)]

/-! ## Claims -/

/-- C10: `getCuraPid` throws when the lookup exits 0 but its stdout is not
a single numeric token (e.g. two newline-separated pids); it returns null
exactly when the lookup exits 1 with no output at all on either stream; and
it returns a numeric id only when the trimmed stdout parses as a number. -/
theorem getCuraPid_spec (r : PgrepRes) (s : St) :
    (r.exitCode = 0 → jsNumber (jsTrim r.stdout) = none →
      getCuraPidR r s = .halt [Event.pgrep none] (.thrown "No process number returned")) ∧
    (∀ tr s1, getCuraPidR r s = .ok tr s1 none →
      r.exitCode = 1 ∧ r.stderr.length = 0 ∧ r.stdout.length = 0) ∧
    (r.exitCode = 1 → r.stderr.length = 0 → r.stdout.length = 0 →
      getCuraPidR r s = .ok [Event.pgrep (some none)] s none) ∧
    (∀ tr s1 n, getCuraPidR r s = .ok tr s1 (some n) →
      r.exitCode = 0 ∧ jsNumber (jsTrim r.stdout) = some n) := by
  refine ⟨?_, ?_, ?_, ?_⟩
  · intro h0 hnan
    unfold getCuraPidR
    rw [if_neg (by omega : ¬(r.exitCode = 1 ∧ r.stderr.length = 0 ∧ r.stdout.length = 0)),
      if_pos h0, hnan]
  · intro tr s1 h
    unfold getCuraPidR at h
    by_cases hc : r.exitCode = 1 ∧ r.stderr.length = 0 ∧ r.stdout.length = 0
    · exact hc
    · rw [if_neg hc] at h
      by_cases h0 : r.exitCode = 0
      · rw [if_pos h0] at h
        cases hj : jsNumber (jsTrim r.stdout) with
        | some n => rw [hj] at h; simp at h
        | none => rw [hj] at h; cases h
      · rw [if_neg h0] at h; cases h
  · intro h1 h2 h3
    unfold getCuraPidR
    rw [if_pos ⟨h1, h2, h3⟩]
  · intro tr s1 n h
    unfold getCuraPidR at h
    by_cases hc : r.exitCode = 1 ∧ r.stderr.length = 0 ∧ r.stdout.length = 0
    · rw [if_pos hc] at h
      simp at h
    · rw [if_neg hc] at h
      by_cases h0 : r.exitCode = 0
      · rw [if_pos h0] at h
        refine ⟨h0, ?_⟩
        cases hj : jsNumber (jsTrim r.stdout) with
        | some m => rw [hj] at h; simp at h; rw [h.2.2]
        | none => rw [hj] at h; cases h
      · rw [if_neg h0] at h; cases h

/-- C10 witness: exit code 0 with two pids on stdout makes `getCuraPid`
throw. -/
theorem getCuraPid_spec_witness :
    getCuraPidR ⟨0, "12\n34\n", ""⟩ ⟨[], []⟩ =
      .halt [Event.pgrep none] (.thrown "No process number returned") :=
  (getCuraPid_spec ⟨0, "12\n34\n", ""⟩ ⟨[], []⟩).1 rfl (by decide)

/-- C6 (amended): each line read by `confirm` is trimmed and lowercased;
exactly `y` or `n` is returned as given; an empty line returns the default
answer when one is provided, and when no default is provided an empty line
returns the absent answer (JavaScript `null`) rather than re-prompting; any
other input repeats the prompt. -/
theorem confirm_behavior (q : String) (d : Option YN) (line : String) (rest : List String) :
    (jsLower (jsTrim line) = "y" →
      confirmGo q d (line :: rest) = ([Event.question (qPrompt q d)], rest, some (some YN.y))) ∧
    (jsLower (jsTrim line) = "n" →
      confirmGo q d (line :: rest) = ([Event.question (qPrompt q d)], rest, some (some YN.n))) ∧
    (jsLower (jsTrim line) = "" →
      confirmGo q d (line :: rest) = ([Event.question (qPrompt q d)], rest, some d)) ∧
    (jsLower (jsTrim line) ≠ "y" → jsLower (jsTrim line) ≠ "n" → jsLower (jsTrim line) ≠ "" →
      confirmGo q d (line :: rest) =
        (Event.question (qPrompt q d) :: (confirmGo q d rest).1,
         (confirmGo q d rest).2.1, (confirmGo q d rest).2.2)) := by
  refine ⟨?_, ?_, ?_, ?_⟩
  · intro h
    simp [confirmGo, h]
  · intro h
    simp [confirmGo, h]
  · intro h
    simp [confirmGo, h]
  · intro h1 h2 h3
    simp [confirmGo, h1, h2, h3]

/-- C6 counterexample: with no default answer, an empty line makes
`confirm` return the absent answer (null) at once — consuming only that
line — instead of repeating the prompt and reading the next line. -/
theorem confirm_empty_no_default_returns_null :
    confirmGo "Proceed?" none ["", "y"] =
      ([Event.question "Proceed? (y/n) "], ["y"], some none) ∧
    (confirmGo "Proceed?" none ["", "y"]).2.2 ≠ some (some YN.y) := by
  exact ⟨rfl, by decide⟩

/-- C6 witness: a line that trims and lowercases to `y` is accepted. -/
theorem confirm_behavior_witness :
    confirmGo "Save?" (some YN.y) [" Y "] =
      ([Event.question (qPrompt "Save?" (some YN.y))], [], some (some YN.y)) :=
  (confirm_behavior "Save?" (some YN.y) " Y " []).1 (by decide)

/-- C8 (amended): with subcommand `cwd` the program prints exactly the
resolved configuration directory path and exits 0, with no other output and
no filesystem side effects; the only subprocess invocations are the two
read-only startup checks (`git --version` and `git status`) that every
invocation performs before dispatch — the `cwd` branch itself invokes
none. -/
theorem cwd_prints_path (w : World) (p : List String)
    (hcd : w.curaDirExists = true) (hgi : w.gitInstalled = true)
    (hcv : w.curaVersionDirExists = true)
    (hp : parseArgsStrict w.argv = some p) (hcmd : p.get? 2 = some "cwd") :
    runProgram w =
      ⟨[Event.exec "git" ["--version"] none, Event.exec "git" ["status"] (some (curaDir w)),
        Event.log (curaDir w)], .exit 0⟩ := by
  rw [runProgram_eq w hcd hgi hcv, mainFn_dispatch w p "cwd" _ hp hcmd]
  have hd : dispatch w p ⟨w.stdin, w.execOks⟩ =
      Res.halt [Event.log (curaDir w)] (Outcome.exit 0) := by
    unfold dispatch
    rw [hcmd]
    simp
  rw [hd]
  rfl

/-- The environment of the concrete `cwd` run used for C8. -/
def wCwd : World :=
  ⟨["/usr/bin/bun", "/app/index.ts", "cwd"], [], .linux, "alice",
    true, true, true, false, ⟨1, "", ""⟩, true, 0, "", 0, []⟩

/-- C8 counterexample: a `cwd` run does perform subprocess invocations —
the startup checks `git --version` and `git status` appear in its trace —
contradicting "no subprocess invocations during the run". -/
theorem cwd_startup_subprocess :
    (runProgram wCwd).outcome = .exit 0 ∧
    Event.exec "git" ["--version"] none ∈ (runProgram wCwd).trace ∧
    Event.exec "git" ["status"] (some (curaDir wCwd)) ∈ (runProgram wCwd).trace := by
  refine ⟨rfl, by decide, by decide⟩

/-- C8 witness: the concrete `cwd` run prints the path and exits 0. -/
theorem cwd_prints_path_witness :
    runProgram wCwd =
      ⟨[Event.exec "git" ["--version"] none, Event.exec "git" ["status"] (some (curaDir wCwd)),
        Event.log (curaDir wCwd)], .exit 0⟩ :=
  cwd_prints_path wCwd ["/usr/bin/bun", "/app/index.ts", "cwd"] rfl rfl rfl rfl rfl

/-- If an argument token other than the lone `-` or the `--` terminator
starts with `-` and no `--` terminator precedes it, strict parsing throws. -/
theorem parseArgsStrict_none (xs ys : List String) (t : String)
    (hnd : "--" ∉ xs) (ht : beginsDash t = true) (ht1 : t ≠ "-") (ht2 : t ≠ "--") :
    parseArgsStrict (xs ++ t :: ys) = none := by
  induction xs with
  | nil =>
    simp only [List.nil_append, parseArgsStrict]
    rw [if_neg ht2, if_neg ht1, if_pos ht]

  | cons x xs ih =>
    have hx : x ≠ "--" := fun h => hnd (by rw [h]; exact List.mem_cons_self _ _)
    have hnd2 : "--" ∉ xs := fun h => hnd (List.mem_cons_of_mem _ h)
    simp only [List.cons_append, parseArgsStrict, List.append_eq]
    rw [if_neg hx]
    by_cases hx1 : x = "-"
    · rw [if_pos hx1, ih hnd2]
      rfl
    · rw [if_neg hx1]
      by_cases hxs : beginsDash x = true
      · rw [if_pos hxs]
      · rw [if_neg hxs, ih hnd2]
        rfl

/-- C9 (amended): an argument list containing an option token — a word
beginning with `-` other than the lone `-` and the `--` terminator, and not
shielded by a preceding `--` — makes strict argument parsing throw, so the
process dies with an uncaught error after only the startup checks, before
any subcommand is dispatched; tokens `-` and `--` (and anything after `--`)
are instead accepted as positionals. -/
theorem option_token_throws (w : World) (xs ys : List String) (t : String)
    (hargv : w.argv = xs ++ t :: ys)
    (hnd : "--" ∉ xs)
    (ht : beginsDash t = true) (ht1 : t ≠ "-") (ht2 : t ≠ "--")
    (hcd : w.curaDirExists = true) (hgi : w.gitInstalled = true)
    (hcv : w.curaVersionDirExists = true) :
    runProgram w =
      ⟨[Event.exec "git" ["--version"] none, Event.exec "git" ["status"] (some (curaDir w))],
       .thrown "parseArgs: unknown option"⟩ := by
  rw [runProgram_eq w hcd hgi hcv]
  unfold mainFn
  rw [hargv, parseArgsStrict_none xs ys t hnd ht ht1 ht2]
  rfl

/-- The environment of the concrete lone-dash run used for C9. -/
def wDash : World :=
  ⟨["/usr/bin/bun", "/app/index.ts", "-"], [], .linux, "alice",
    true, true, true, false, ⟨1, "", ""⟩, true, 0, "", 0, []⟩

/-- C9 counterexample: the lone `-` is a word beginning with `-`, yet
parsing does not throw — it is taken as a positional and dispatch runs,
reporting an unrecognized command and exiting 1. -/
theorem dash_token_dispatches :
    beginsDash "-" = true ∧
    runProgram wDash =
      ⟨[Event.exec "git" ["--version"] none,
        Event.exec "git" ["status"] (some "/home/alice/.local/share/cura"),
        Event.err "unrecognized command -", Event.log helpText], .exit 1⟩ := by
  exact ⟨rfl, rfl⟩

/-- The environment of the concrete unknown-option run used for C9. -/
def wOpt : World :=
  ⟨["/usr/bin/bun", "/app/index.ts", "--verbose"], [], .linux, "alice",
    true, true, true, false, ⟨1, "", ""⟩, true, 0, "", 0, []⟩

/-- C9 witness: `--verbose` makes parsing throw before dispatch. -/
theorem option_token_throws_witness :
    runProgram wOpt =
      ⟨[Event.exec "git" ["--version"] none, Event.exec "git" ["status"] (some (curaDir wOpt))],
       .thrown "parseArgs: unknown option"⟩ :=
  option_token_throws wOpt ["/usr/bin/bun", "/app/index.ts"] [] "--verbose" rfl
    (by decide) rfl (by decide) (by decide) rfl rfl rfl

/-- Case analysis of `startup`: either all checks pass, or the run dies
with a thrown error after at most the read-only `git --version` probe. -/
theorem startup_cases (w : World) (s : St) :
    startup w s = .ok [Event.exec "git" ["--version"] none,
      Event.exec "git" ["status"] (some (curaDir w))] s () ∨
    (∃ tr m, startup w s = .halt tr (.thrown m) ∧ stageCommitPushFree tr = true ∧
      mutationFree tr = true ∧ tr.any isAuthEvent = false) := by
  unfold startup
  split
  · right; exact ⟨_, _, rfl, by decide, by decide, by decide⟩
  · split
    · right; exact ⟨_, _, rfl, by decide, by decide, by decide⟩
    · split
      · right; exact ⟨_, _, rfl, by decide, by decide, by decide⟩
      · left; rfl

/-- The dispatcher routes `init` to its branch. -/
theorem dispatch_init (w : World) (p : List String) (s : St)
    (h : p.get? 2 = some "init") : dispatch w p s = initBranch w p s := by
  unfold dispatch
  rw [h]
  simp

/-- The dispatcher routes `clone` to its branch. -/
theorem dispatch_clone (w : World) (p : List String) (s : St)
    (h : p.get? 2 = some "clone") : dispatch w p s = cloneBranch w p s := by
  unfold dispatch
  rw [h]
  simp

/-- The dispatcher routes `push` to its branch. -/
theorem dispatch_push (w : World) (p : List String) (s : St)
    (h : p.get? 2 = some "push") : dispatch w p s = pushBranch w s := by
  unfold dispatch
  rw [h]
  simp

/-- The push branch on a clean working copy: its trace never contains a
stage, commit or push subprocess, and the only way it exits is with code 1
after the nothing-to-push message. -/
theorem pushBranch_clean (w : World) (s : St) (hclean : w.dirtyExit = 0) :
    stageCommitPushFree (pushBranch w s).toRun.trace = true ∧
    (pushBranch w s).toRun.outcome ≠ .exit 0 ∧
    (∀ c, (pushBranch w s).toRun.outcome = .exit c →
      c = 1 ∧ Event.err "Looks like there are no changes to push" ∈ (pushBranch w s).toRun.trace) := by
  have hne : ¬ (w.dirtyExit = 1) := by omega
  unfold pushBranch
  rcases getCuraPidR_cases w.pgrepRes s with h1 | ⟨n, h2⟩ | ⟨tr, m, h3, _, hsf⟩
  · rw [h1]
    simp only [Res.bind_ok, Res.withTrace_ok, List.append_nil, truthy,
      Bool.false_eq_true, if_false]
    rw [if_neg hne]
    simp only [hclean, Res.withTrace_halt, Res.toRun]
    refine ⟨by decide, by simp, ?_⟩
    intro c hc
    exact ⟨by cases hc; rfl, by simp⟩
  · rw [h2]
    simp only [Res.bind_ok, Res.withTrace_ok, List.append_nil, truthy]
    by_cases hn : n = 0
    · subst hn
      simp only [bne_self_eq_false, Bool.false_eq_true, if_false, Res.bind_ok,
        Res.withTrace_ok, List.append_nil]
      rw [if_neg hne]
      simp only [hclean, Res.withTrace_halt, Res.toRun]
      refine ⟨by decide, by simp, ?_⟩
      intro c hc
      exact ⟨by cases hc; rfl, by simp⟩
    · rw [if_pos (by simpa using hn)]
      rcases hcg : confirmGo pushKillQ (some YN.y) s.stdin with ⟨tr2, rest2, ans⟩
      have hq : tr2.all isQuestion = true := by
        have := confirmGo_questions pushKillQ (some YN.y) s.stdin
        rw [hcg] at this
        exact this
      rcases ans with _ | av
      · rw [confirmR_blocked hcg]
        simp only [Res.bind_halt, Res.withTrace_halt, Res.toRun]
        refine ⟨?_, by simp, by simp⟩
        simp only [scpFree_append, questions_scpFree hq, Bool.and_true, Bool.true_and]
        rfl
      · rw [confirmR_ok hcg]
        simp only [Res.bind_ok, Res.withTrace_ok, List.append_nil]
        by_cases hy : av = some YN.y
        · subst hy
          rw [if_pos rfl]
          unfold killProcessR
          by_cases hk : w.killOk
          · rw [if_pos hk]
            simp only [Res.bind_ok, Res.withTrace_ok, List.append_nil]
            rw [if_neg hne]
            simp only [Res.withTrace_halt, Res.toRun]
            refine ⟨?_, by simp, ?_⟩
            · simp only [scpFree_append, questions_scpFree hq, Bool.and_true, Bool.true_and]
              rfl
            · intro c hc
              refine ⟨by cases hc; rfl, by simp⟩
          · rw [if_neg hk]
            simp only [Res.bind_halt, Res.withTrace_halt, Res.toRun]
            refine ⟨?_, by simp, by simp⟩
            simp only [scpFree_append, questions_scpFree hq, Bool.and_true, Bool.true_and]
            rfl
        · rw [if_neg hy]
          simp only [Res.bind_ok, Res.withTrace_ok, List.append_nil]
          rw [if_neg hne]
          simp only [Res.withTrace_halt, Res.toRun]
          refine ⟨?_, by simp, ?_⟩
          · simp only [scpFree_append, questions_scpFree hq, Bool.and_true, Bool.true_and]
            rfl
          · intro c hc
            refine ⟨by cases hc; rfl, by simp⟩
  · rw [h3]
    simp only [Res.bind_halt, Res.toRun]
    exact ⟨hsf, by simp, by simp⟩

/-- C3: for every push invocation where the working copy exactly matches
the last commit (`git diff-index --exit-code HEAD` exits 0), the run never
invokes a stage, commit or push subprocess, never exits 0, and whenever it
exits it exits with code 1 having printed the nothing-to-push message. -/
theorem push_clean_aborts (w : World) (p : List String)
    (hp : parseArgsStrict w.argv = some p)
    (hcmd : p.get? 2 = some "push")
    (hclean : w.dirtyExit = 0) :
    stageCommitPushFree (runProgram w).trace = true ∧
    (runProgram w).outcome ≠ .exit 0 ∧
    (∀ c, (runProgram w).outcome = .exit c →
      c = 1 ∧ Event.err "Looks like there are no changes to push" ∈ (runProgram w).trace) := by
  rcases startup_cases w ⟨w.stdin, w.execOks⟩ with hs | ⟨tr, m, hs, hf, _, _⟩
  · have hrw : runProgram w =
        ⟨[Event.exec "git" ["--version"] none, Event.exec "git" ["status"] (some (curaDir w))] ++
           (pushBranch w ⟨w.stdin, w.execOks⟩).toRun.trace,
         (pushBranch w ⟨w.stdin, w.execOks⟩).toRun.outcome⟩ := by
      unfold runProgram
      rw [hs]
      simp only [Res.bind_ok]
      rw [Res.toRun_withTrace, mainFn_dispatch w p "push" _ hp hcmd, dispatch_push w p _ hcmd]
    rw [hrw]
    obtain ⟨h1, h2, h3⟩ := pushBranch_clean w ⟨w.stdin, w.execOks⟩ hclean
    refine ⟨?_, h2, ?_⟩
    · dsimp only
      rw [scpFree_append, h1]
      rfl
    · intro c hc
      obtain ⟨hc1, hc2⟩ := h3 c hc
      exact ⟨hc1, List.mem_append_right _ hc2⟩
  · have hrw : runProgram w = ⟨tr, .thrown m⟩ := by
      unfold runProgram
      rw [hs]
      rfl
    rw [hrw]
    exact ⟨hf, by simp, by simp⟩

/-- The environment of the concrete clean `push` run used for C3. -/
def wPushClean : World :=
  ⟨["/usr/bin/bun", "/app/index.ts", "push"], [], .linux, "alice",
    true, true, true, true, ⟨1, "", ""⟩, true, 0, "", 0, []⟩

/-- C3 witness: on the concrete clean push run, no stage/commit/push
subprocess appears and the run exits 1 with the message. -/
theorem push_clean_aborts_witness :
    stageCommitPushFree (runProgram wPushClean).trace = true ∧
    (runProgram wPushClean).outcome ≠ .exit 0 ∧
    (∀ c, (runProgram wPushClean).outcome = .exit c →
      c = 1 ∧ Event.err "Looks like there are no changes to push" ∈ (runProgram wPushClean).trace) :=
  push_clean_aborts wPushClean ["/usr/bin/bun", "/app/index.ts", "push"] rfl rfl rfl

/-- The init branch on a bad (or missing) URL argument: its trace mutates
nothing, and it either exits 1 or blocks at a prompt. -/
theorem initBranch_bad_url (w : World) (p : List String) (s : St)
    (hbad : ∀ u, p.get? 3 = some u → isValidUrl u = false) :
    mutationFree (initBranch w p s).toRun.trace = true ∧
    ((initBranch w p s).toRun.outcome = .exit 1 ∨
      (initBranch w p s).toRun.outcome = .blocked) := by
  unfold initBranch initUrlStage
  rcases hcg : confirmGo initQ (some YN.n) s.stdin with ⟨tr1, rest1, ans⟩
  have hq1 : tr1.all isQuestion = true := by
    have := confirmGo_questions initQ (some YN.n) s.stdin
    rw [hcg] at this
    exact this
  rcases ans with _ | a
  · rw [confirmR_blocked hcg]
    simp only [Res.bind_halt, Res.toRun]
    exact ⟨questions_mutationFree hq1, by simp⟩
  · rw [confirmR_ok hcg]
    simp only [Res.bind_ok, Res.withTrace_ok, List.append_nil]
    by_cases hy : a = some YN.y
    · rw [if_pos hy]
      by_cases hg : w.gitStatusOk
      · rw [if_pos hg]
        rcases hcg2 : confirmGo overwriteQ (some YN.n) rest1 with ⟨tr2, rest2, ans2⟩
        have hq2 : tr2.all isQuestion = true := by
          have := confirmGo_questions overwriteQ (some YN.n) rest1
          rw [hcg2] at this
          exact this
        rcases ans2 with _ | b
        · rw [confirmR_blocked hcg2]
          simp only [Res.bind_halt, Res.withTrace_halt, Res.toRun]
          refine ⟨?_, by simp⟩
          rw [mutationFree_append, questions_mutationFree hq1, questions_mutationFree hq2]
          rfl
        · rw [confirmR_ok hcg2]
          simp only [Res.bind_ok, Res.withTrace_ok, List.append_nil]
          by_cases hb : b = some YN.y
          · rw [if_pos hb]
            simp only [Res.bind_ok, Res.withTrace_ok, List.append_nil]
            rcases hu : p.get? 3 with _ | u
            · dsimp only
              simp only [Res.withTrace_halt, Res.toRun]
              refine ⟨?_, by simp⟩
              simp only [mutationFree_append, questions_mutationFree hq1,
                questions_mutationFree hq2, Bool.true_and, Bool.and_true]
              rfl
            · dsimp only
              rw [if_neg (by simp [hbad u hu])]
              simp only [Res.withTrace_halt, Res.toRun]
              refine ⟨?_, by simp⟩
              simp only [mutationFree_append, questions_mutationFree hq1,
                questions_mutationFree hq2, Bool.true_and, Bool.and_true]
              rfl
          · rw [if_neg hb]
            simp only [Res.bind_halt, Res.withTrace_halt, Res.toRun, List.append_nil]
            refine ⟨?_, by simp⟩
            rw [mutationFree_append, questions_mutationFree hq1, questions_mutationFree hq2]
            rfl
      · rw [if_neg hg]
        simp only [Res.bind_ok, Res.withTrace_ok, List.append_nil]
        rcases hu : p.get? 3 with _ | u
        · dsimp only
          simp only [Res.withTrace_halt, Res.toRun]
          refine ⟨?_, by simp⟩
          simp only [mutationFree_append, questions_mutationFree hq1, Bool.true_and,
            Bool.and_true]
          rfl
        · dsimp only
          rw [if_neg (by simp [hbad u hu])]
          simp only [Res.withTrace_halt, Res.toRun]
          refine ⟨?_, by simp⟩
          simp only [mutationFree_append, questions_mutationFree hq1, Bool.true_and,
            Bool.and_true]
          rfl
    · rw [if_neg hy]
      simp only [Res.bind_halt, Res.withTrace_halt, Res.toRun, List.append_nil]
      exact ⟨questions_mutationFree hq1, by simp⟩

/-- C5: for every init invocation (startup checks passing) whose URL
argument does not parse as a well-formed URL — including a missing
argument — the run mutates nothing on the filesystem (no metadata removal
or creation, no ignore-file write, no rename) and either exits with code 1
or sits blocked at a confirmation prompt; it can never exit 0. -/
theorem init_bad_url_no_mutation (w : World) (p : List String)
    (hcd : w.curaDirExists = true) (hgi : w.gitInstalled = true)
    (hcv : w.curaVersionDirExists = true)
    (hp : parseArgsStrict w.argv = some p)
    (hcmd : p.get? 2 = some "init")
    (hbad : ∀ u, p.get? 3 = some u → isValidUrl u = false) :
    mutationFree (runProgram w).trace = true ∧
    ((runProgram w).outcome = .exit 1 ∨ (runProgram w).outcome = .blocked) := by
  have hrw : runProgram w =
      ⟨[Event.exec "git" ["--version"] none, Event.exec "git" ["status"] (some (curaDir w))] ++
         (initBranch w p ⟨w.stdin, w.execOks⟩).toRun.trace,
       (initBranch w p ⟨w.stdin, w.execOks⟩).toRun.outcome⟩ := by
    rw [runProgram_eq w hcd hgi hcv, mainFn_dispatch w p "init" _ hp hcmd,
      dispatch_init w p _ hcmd]
  rw [hrw]
  obtain ⟨h1, h2⟩ := initBranch_bad_url w p ⟨w.stdin, w.execOks⟩ hbad
  refine ⟨?_, h2⟩
  dsimp only
  rw [mutationFree_append, h1]
  rfl

/-- The environment of the concrete bad-URL `init` run used for C5. -/
def wInitBad : World :=
  ⟨["/usr/bin/bun", "/app/index.ts", "init", "not a url"], ["y"], .linux, "alice",
    true, true, true, false, ⟨1, "", ""⟩, true, 0, "", 0, []⟩

/-- C5 witness: the concrete `init "not a url"` run mutates nothing and
exits 1. -/
theorem init_bad_url_no_mutation_witness :
    mutationFree (runProgram wInitBad).trace = true ∧
    ((runProgram wInitBad).outcome = .exit 1 ∨ (runProgram wInitBad).outcome = .blocked) :=
  init_bad_url_no_mutation wInitBad ["/usr/bin/bun", "/app/index.ts", "init", "not a url"]
    rfl rfl rfl rfl rfl
    (by intro u hu; injection hu with h; rw [← h]; rfl)

/-- C1: a clone run whose URL is well-formed, whose intent prompt is
answered yes, and whose companion-process guard succeeds (process not
found, or found and successfully killed) first renames the configuration
directory — one `mv` of the directory to the sibling path
`<parent>/cura_backup_<Date.now()>` (a same-directory rename, not a copy) —
then recreates an empty directory at the original path, and only then
invokes the `git clone` subprocess, in exactly that order, and exits 0. -/
theorem clone_backup_order (w : World) (p : List String) (url : String)
    (tr1 tr2 : List Event) (rest1 : List String) (s2 : St)
    (hcd : w.curaDirExists = true) (hgi : w.gitInstalled = true)
    (hcv : w.curaVersionDirExists = true)
    (hp : parseArgsStrict w.argv = some p)
    (hcmd : p.get? 2 = some "clone")
    (hurl : p.get? 3 = some url) (hne : url ≠ "") (hvalid : isValidUrl url = true)
    (hconf : confirmGo cloneQ (some YN.n) w.stdin = (tr1, rest1, some (some YN.y)))
    (hkill : confirmAndKillCura w ⟨rest1, w.execOks⟩ = .ok tr2 s2 true)
    (hoks : s2.oks = []) :
    runProgram w =
      ⟨[Event.exec "git" ["--version"] none, Event.exec "git" ["status"] (some (curaDir w))] ++
         tr1 ++ tr2 ++
         [Event.log "Backing up your current cura configuration...",
          Event.exec "mv" [curaDir w, backupPath (curaDir w) w.now] none,
          Event.exec "mkdir" [curaDir w] none,
          Event.log "Cura folder has been backed up successfully.",
          Event.log ("Cloning from " ++ url ++ "..."),
          Event.exec "git" ["clone", url, "."] (some (curaDir w)),
          Event.log "Clone operation completed successfully. Try opening cura"],
       .exit 0⟩ := by
  rw [runProgram_eq w hcd hgi hcv, mainFn_dispatch w p "clone" _ hp hcmd,
    dispatch_clone w p _ hcmd]
  unfold cloneBranch
  rw [hurl]
  dsimp only
  rw [if_neg hne, if_neg (by simp [hvalid])]
  rw [confirmR_ok hconf]
  simp only [Res.bind_ok, Res.withTrace_ok, List.append_nil, if_pos rfl]
  rw [hkill]
  simp only [Res.bind_ok, Res.withTrace_ok, List.append_nil, if_pos rfl, if_true]
  simp [execFS, hoks, Res.toRun, List.append_assoc]

/-- The environment of the concrete successful `clone` run used for C1. -/
def wClone : World :=
  ⟨["/usr/bin/bun", "/app/index.ts", "clone", "https://example.com/cura.git"], ["y"],
    .linux, "alice", true, true, true, false, ⟨1, "", ""⟩, true, 0, "", 1700000000000, []⟩

/-- C1 witness: the concrete clone run backs up by rename, recreates the
directory, then clones, in that order. -/
theorem clone_backup_order_witness :
    runProgram wClone =
      ⟨[Event.exec "git" ["--version"] none,
        Event.exec "git" ["status"] (some (curaDir wClone))] ++
         [Event.question (qPrompt cloneQ (some YN.n))] ++ [Event.pgrep (some none)] ++
         [Event.log "Backing up your current cura configuration...",
          Event.exec "mv" [curaDir wClone, backupPath (curaDir wClone) 1700000000000] none,
          Event.exec "mkdir" [curaDir wClone] none,
          Event.log "Cura folder has been backed up successfully.",
          Event.log ("Cloning from " ++ "https://example.com/cura.git" ++ "..."),
          Event.exec "git" ["clone", "https://example.com/cura.git", "."] (some (curaDir wClone)),
          Event.log "Clone operation completed successfully. Try opening cura"],
       .exit 0⟩ :=
  clone_backup_order wClone ["/usr/bin/bun", "/app/index.ts", "clone", "https://example.com/cura.git"]
    "https://example.com/cura.git" [Event.question (qPrompt cloneQ (some YN.n))]
    [Event.pgrep (some none)] [] ⟨[], []⟩
    rfl rfl rfl rfl rfl rfl (by decide) (by decide) rfl rfl rfl

/-- C2: a successful init run (intent confirmed, overwrite confirmed when
the folder is already a repository, URL well-formed, kill-guard passed, all
subprocesses succeeding) performs in strict order: remove the existing
`.git` metadata (only when the folder was already a repository), `git
init`, `git remote add origin <url>`, `git add .`, `git commit -m
"[curasync] init"`, `git push -u origin main`, and only after the push the
`.gitignore` write — so the ignore file is not part of the initial
commit — then exits 0. -/
theorem init_exec_order (w : World) (p : List String) (url : String)
    (tr1 tr2 tr3 : List Event) (rest1 rest2 : List String) (s3 : St)
    (hcd : w.curaDirExists = true) (hgi : w.gitInstalled = true)
    (hcv : w.curaVersionDirExists = true)
    (hp : parseArgsStrict w.argv = some p)
    (hcmd : p.get? 2 = some "init")
    (hurl : p.get? 3 = some url) (hvalid : isValidUrl url = true)
    (hconf : confirmGo initQ (some YN.n) w.stdin = (tr1, rest1, some (some YN.y)))
    (hover : (w.gitStatusOk = true ∧
        confirmGo overwriteQ (some YN.n) rest1 = (tr2, rest2, some (some YN.y))) ∨
      (w.gitStatusOk = false ∧ tr2 = [] ∧ rest2 = rest1))
    (hkill : confirmAndKillCura w ⟨rest2, w.execOks⟩ = .ok tr3 s3 true)
    (hoks : s3.oks = []) :
    runProgram w =
      ⟨[Event.exec "git" ["--version"] none, Event.exec "git" ["status"] (some (curaDir w))] ++
         tr1 ++ tr2 ++ tr3 ++
         (if w.gitStatusOk then [Event.exec "rm" ["-rf", ".git"] (some (curaDir w))] else []) ++
         [Event.exec "git" ["init"] (some (curaDir w)),
          Event.exec "git" ["remote", "add", "origin", url] (some (curaDir w)),
          Event.exec "git" ["add", "."] (some (curaDir w)),
          Event.exec "git" ["commit", "-m", "[curasync] init"] (some (curaDir w)),
          Event.exec "git" ["push", "-u", "origin", "main"] (some (curaDir w)),
          Event.writeFile (curaDir w ++ "/.gitignore") gitignoreContent],
       .exit 0⟩ := by
  rw [runProgram_eq w hcd hgi hcv, mainFn_dispatch w p "init" _ hp hcmd,
    dispatch_init w p _ hcmd]
  unfold initBranch initUrlStage
  rw [confirmR_ok hconf]
  simp only [Res.bind_ok, Res.withTrace_ok, List.append_nil, reduceIte]
  rcases hover with ⟨hg, hov⟩ | ⟨hg, htr2, hrest2⟩
  · rw [if_pos hg, confirmR_ok hov]
    simp only [Res.bind_ok, Res.withTrace_ok, List.append_nil, reduceIte]
    rw [hurl]
    dsimp only
    rw [if_pos hvalid]
    unfold initRepo
    rw [hkill]
    simp only [Res.bind_ok, Res.withTrace_ok, List.append_nil, reduceIte]
    rw [if_pos hg]
    simp [execFS, hoks, Res.toRun, List.append_assoc, hg]
  · subst htr2
    subst hrest2
    rw [if_neg (by simp [hg])]
    simp only [Res.bind_ok, Res.withTrace_ok, List.append_nil, reduceIte]
    rw [hurl]
    dsimp only
    rw [if_pos hvalid]
    unfold initRepo
    rw [hkill]
    simp only [Res.bind_ok, Res.withTrace_ok, List.append_nil, reduceIte]
    rw [if_neg (by simp [hg])]
    simp only [Res.bind_ok, Res.withTrace_ok, List.append_nil]
    simp [execFS, hoks, Res.toRun, List.append_assoc, hg]

/-- The environment of the concrete successful `init` run used for C2. -/
def wInit : World :=
  ⟨["/usr/bin/bun", "/app/index.ts", "init", "https://example.com/cura.git"], ["y", "y"],
    .linux, "alice", true, true, true, true, ⟨1, "", ""⟩, true, 0, "", 0, []⟩

set_option maxRecDepth 4000 in
/-- C2 witness: the concrete init run on an already-initialized folder
performs removal, init, remote add, stage, commit, push, then the ignore
write, in that order. -/
theorem init_exec_order_witness :
    runProgram wInit =
      ⟨[Event.exec "git" ["--version"] none,
        Event.exec "git" ["status"] (some (curaDir wInit))] ++
         [Event.question (qPrompt initQ (some YN.n))] ++
         [Event.question (qPrompt overwriteQ (some YN.n))] ++ [Event.pgrep (some none)] ++
         (if wInit.gitStatusOk then [Event.exec "rm" ["-rf", ".git"] (some (curaDir wInit))]
          else []) ++
         [Event.exec "git" ["init"] (some (curaDir wInit)),
          Event.exec "git" ["remote", "add", "origin", "https://example.com/cura.git"]
            (some (curaDir wInit)),
          Event.exec "git" ["add", "."] (some (curaDir wInit)),
          Event.exec "git" ["commit", "-m", "[curasync] init"] (some (curaDir wInit)),
          Event.exec "git" ["push", "-u", "origin", "main"] (some (curaDir wInit)),
          Event.writeFile (curaDir wInit ++ "/.gitignore") gitignoreContent],
       .exit 0⟩ :=
  init_exec_order wInit ["/usr/bin/bun", "/app/index.ts", "init", "https://example.com/cura.git"]
    "https://example.com/cura.git" [Event.question (qPrompt initQ (some YN.n))]
    [Event.question (qPrompt overwriteQ (some YN.n))] [Event.pgrep (some none)]
    ["y"] [] ⟨[], []⟩
    rfl rfl rfl rfl rfl rfl (by decide) (by decide)
    (Or.inl ⟨rfl, by decide⟩) rfl rfl

/-- Any trace `confirmAndKillCura` produces when it falls through is
mutation-free. -/
theorem cakc_ok_mutationFree {w : World} {s : St} {tr : List Event} {s1 : St} {b : Bool}
    (h : confirmAndKillCura w s = .ok tr s1 b) : mutationFree tr = true := by
  rcases cakc_cases w s with ⟨tr2, o, h2, _⟩ | ⟨tr2, s2, h2, hm⟩ | ⟨tr2, s2, h2, hm, _⟩
  · rw [h] at h2
    cases h2
  · rw [h] at h2
    injection h2 with e1 e2 e3
    rw [e1]
    exact hm
  · rw [h] at h2
    injection h2 with e1 e2 e3
    rw [e1]
    exact hm

/-- C4 (amended): declining the companion-process termination prompt during
`init` or `clone` aborts the operation by throwing the uncaught error
"Exiting: cura is still running" — an abnormal termination the runtime
reports with a stack trace (not the clean short-message `process.exit(1)`
the other user-facing errors use) — with zero filesystem side effects: the
trace contains no rename, removal, mutating git subprocess, or file write
(only the read-only startup probes and the process-guard events). -/
theorem kill_decline_aborts (w : World) (p : List String)
    (hcd : w.curaDirExists = true) (hgi : w.gitInstalled = true)
    (hcv : w.curaVersionDirExists = true)
    (hp : parseArgsStrict w.argv = some p) :
    (∀ url tr1 rest1 tr2 s2,
      p.get? 2 = some "clone" → p.get? 3 = some url → url ≠ "" → isValidUrl url = true →
      confirmGo cloneQ (some YN.n) w.stdin = (tr1, rest1, some (some YN.y)) →
      confirmAndKillCura w ⟨rest1, w.execOks⟩ = .ok tr2 s2 false →
      runProgram w =
        ⟨[Event.exec "git" ["--version"] none,
          Event.exec "git" ["status"] (some (curaDir w))] ++ tr1 ++ tr2,
         .thrown "Exiting: cura is still running"⟩ ∧
      mutationFree (runProgram w).trace = true) ∧
    (∀ url tr1 rest1 tr2 rest2 tr3 s3,
      p.get? 2 = some "init" → p.get? 3 = some url → isValidUrl url = true →
      confirmGo initQ (some YN.n) w.stdin = (tr1, rest1, some (some YN.y)) →
      ((w.gitStatusOk = true ∧
         confirmGo overwriteQ (some YN.n) rest1 = (tr2, rest2, some (some YN.y))) ∨
        (w.gitStatusOk = false ∧ tr2 = [] ∧ rest2 = rest1)) →
      confirmAndKillCura w ⟨rest2, w.execOks⟩ = .ok tr3 s3 false →
      runProgram w =
        ⟨[Event.exec "git" ["--version"] none,
          Event.exec "git" ["status"] (some (curaDir w))] ++ tr1 ++ tr2 ++ tr3,
         .thrown "Exiting: cura is still running"⟩ ∧
      mutationFree (runProgram w).trace = true) := by
  constructor
  · intro url tr1 rest1 tr2 s2 hcmd hurl hne hvalid hconf hkill
    have hq1 : tr1.all isQuestion = true := by
      have := confirmGo_questions cloneQ (some YN.n) w.stdin
      rw [hconf] at this
      exact this
    have hrw : runProgram w =
        ⟨[Event.exec "git" ["--version"] none,
          Event.exec "git" ["status"] (some (curaDir w))] ++ tr1 ++ tr2,
         .thrown "Exiting: cura is still running"⟩ := by
      rw [runProgram_eq w hcd hgi hcv, mainFn_dispatch w p "clone" _ hp hcmd,
        dispatch_clone w p _ hcmd]
      unfold cloneBranch
      rw [hurl]
      dsimp only
      rw [if_neg hne, if_neg (by simp [hvalid])]
      rw [confirmR_ok hconf]
      simp only [Res.bind_ok, Res.withTrace_ok, List.append_nil, reduceIte]
      rw [hkill]
      simp only [Res.bind_ok, Res.withTrace_ok, List.append_nil, reduceIte,
        Res.withTrace_halt, Res.bind_halt]
      simp [Res.toRun, List.append_assoc]
    refine ⟨hrw, ?_⟩
    rw [hrw]
    dsimp only
    simp only [mutationFree_append, questions_mutationFree hq1,
      cakc_ok_mutationFree hkill, Bool.and_true, Bool.true_and]
    rfl
  · intro url tr1 rest1 tr2 rest2 tr3 s3 hcmd hurl hvalid hconf hover hkill
    have hq1 : tr1.all isQuestion = true := by
      have := confirmGo_questions initQ (some YN.n) w.stdin
      rw [hconf] at this
      exact this
    have hq2 : tr2.all isQuestion = true := by
      rcases hover with ⟨_, hov⟩ | ⟨_, htr2, _⟩
      · have := confirmGo_questions overwriteQ (some YN.n) rest1
        rw [hov] at this
        exact this
      · rw [htr2]
        rfl
    have hrw : runProgram w =
        ⟨[Event.exec "git" ["--version"] none,
          Event.exec "git" ["status"] (some (curaDir w))] ++ tr1 ++ tr2 ++ tr3,
         .thrown "Exiting: cura is still running"⟩ := by
      rw [runProgram_eq w hcd hgi hcv, mainFn_dispatch w p "init" _ hp hcmd,
        dispatch_init w p _ hcmd]
      unfold initBranch initUrlStage
      rw [confirmR_ok hconf]
      simp only [Res.bind_ok, Res.withTrace_ok, List.append_nil, reduceIte]
      rcases hover with ⟨hg, hov⟩ | ⟨hg, htr2, hrest2⟩
      · rw [if_pos hg, confirmR_ok hov]
        simp only [Res.bind_ok, Res.withTrace_ok, List.append_nil, reduceIte]
        rw [hurl]
        dsimp only
        rw [if_pos hvalid]
        unfold initRepo
        rw [hkill]
        simp only [Res.bind_ok, Res.withTrace_ok, List.append_nil, reduceIte,
          Res.withTrace_halt, Res.bind_halt]
        simp [Res.toRun, List.append_assoc]
      · subst htr2
        subst hrest2
        rw [if_neg (by simp [hg])]
        simp only [Res.bind_ok, Res.withTrace_ok, List.append_nil, reduceIte]
        rw [hurl]
        dsimp only
        rw [if_pos hvalid]
        unfold initRepo
        rw [hkill]
        simp only [Res.bind_ok, Res.withTrace_ok, List.append_nil, reduceIte,
          Res.withTrace_halt, Res.bind_halt]
        simp [Res.toRun, List.append_assoc]
    refine ⟨hrw, ?_⟩
    rw [hrw]
    dsimp only
    simp only [mutationFree_append, questions_mutationFree hq1, questions_mutationFree hq2,
      cakc_ok_mutationFree hkill, Bool.and_true, Bool.true_and]
    rfl

/-- The environment of the concrete declined-kill `clone` run used for C4. -/
def wCloneDecline : World :=
  ⟨["/usr/bin/bun", "/app/index.ts", "clone", "https://example.com/cura.git"], ["y", "n"],
    .linux, "alice", true, true, true, false, ⟨0, "4242\n", ""⟩, true, 0, "", 1700000000000, []⟩

/-- C4 counterexample: declining the kill prompt makes the run end by
throwing "Exiting: cura is still running" (an uncaught error with a stack
trace), not by the clean `process.exit(1)` the claim describes; and the
run's trace does contain git subprocess invocations (the startup probes). -/
theorem kill_decline_not_exit1 :
    (runProgram wCloneDecline).outcome = .thrown "Exiting: cura is still running" ∧
    (runProgram wCloneDecline).outcome ≠ .exit 1 ∧
    Event.exec "git" ["status"] (some (curaDir wCloneDecline)) ∈ (runProgram wCloneDecline).trace := by
  refine ⟨by decide, by decide, by decide⟩

/-- C4 witness: the concrete declined-kill clone run throws and mutates
nothing. -/
theorem kill_decline_aborts_witness :
    runProgram wCloneDecline =
      ⟨[Event.exec "git" ["--version"] none,
        Event.exec "git" ["status"] (some (curaDir wCloneDecline))] ++
         [Event.question (qPrompt cloneQ (some YN.n))] ++
         [Event.pgrep (some (some 4242)), Event.question (qPrompt killQ (some YN.y))],
       .thrown "Exiting: cura is still running"⟩ ∧
    mutationFree (runProgram wCloneDecline).trace = true :=
  (kill_decline_aborts wCloneDecline
      ["/usr/bin/bun", "/app/index.ts", "clone", "https://example.com/cura.git"]
      rfl rfl rfl rfl).1
    "https://example.com/cura.git" [Event.question (qPrompt cloneQ (some YN.n))] ["n"]
    [Event.pgrep (some (some 4242)), Event.question (qPrompt killQ (some YN.y))] ⟨[], []⟩
    rfl rfl (by decide) (by decide) (by decide) (by decide)

theorem Res.toRun_trace (r : Res Unit) : r.toRun.trace = r.trace := by
  cases r <;> rfl

theorem Res.trace_withTrace {α : Type} (tr : List Event) (r : Res α) :
    (Res.withTrace tr r).trace = tr ++ r.trace := by
  cases r <;> rfl

theorem Res.trace_bind_withTrace {α β : Type} (tr : List Event) (r : Res α)
    (f : St → α → Res β) :
    (Res.bind (Res.withTrace tr r) f).trace = tr ++ (Res.bind r f).trace := by
  cases r with
  | ok tr1 s1 v1 =>
    cases hf : f s1 v1 with
    | ok tr2 s2 v2 => simp [Res.withTrace, Res.bind, Res.trace, hf, List.append_assoc]
    | halt tr2 o => simp [Res.withTrace, Res.bind, Res.trace, hf, List.append_assoc]
  | halt tr1 o => simp [Res.withTrace, Res.bind, Res.trace]

/-- Stripping a mutation-free, authorization-free segment off the front of
a trace does not affect guardedness. -/
theorem guardedAux_append_free (a : Bool) (xs ys : List Event)
    (hm : mutationFree xs = true) (hn : xs.any isAuthEvent = false) :
    guardedAux a (xs ++ ys) = guardedAux a ys := by
  rw [guardedAux_append, guardedAux_of_mutationFree a xs hm, hn, Bool.or_false, Bool.true_and]

/-- A trace whose mutation-free head contains an authorization event is
guarded whatever follows. -/
theorem guardedAux_append_auth (a : Bool) (xs ys : List Event)
    (hm : mutationFree xs = true) (ha : xs.any isAuthEvent = true) :
    guardedAux a (xs ++ ys) = true := by
  rw [guardedAux_append, guardedAux_of_mutationFree a xs hm, ha, Bool.or_true,
    guardedAux_true, Bool.true_and]

/-- Whatever continues after `initializeRepo`, the combined trace is
guarded: every mutation it performs comes after the kill-guard's
authorization. -/
theorem initRepo_then_guarded (w : World) (url : String) (s : St)
    (g : St → Unit → Res Unit) (a : Bool) :
    guardedAux a (Res.bind (initRepo w url s) g).trace = true := by
  unfold initRepo
  rcases cakc_cases w s with ⟨tr, o, h, hm⟩ | ⟨tr, s1, h, hm⟩ | ⟨tr, s1, h, hm, ha⟩
  · rw [h]
    simp only [Res.bind_halt]
    exact guardedAux_of_mutationFree a tr hm
  · rw [h]
    simp only [Res.bind_ok]
    rw [if_neg (by decide : ¬(false = true))]
    simp only [Res.withTrace_halt, List.append_nil, Res.bind_halt]
    exact guardedAux_of_mutationFree a tr hm
  · rw [h]
    simp only [Res.bind_ok]
    rw [if_pos (by trivial)]
    rw [Res.trace_bind_withTrace]
    exact guardedAux_append_auth a tr _ hm ha

/-- The URL stage of `init` is guarded from any starting authorization. -/
theorem initUrlStage_guarded (w : World) (p : List String) (s : St) (a : Bool) :
    guardedAux a (initUrlStage w p s).trace = true := by
  unfold initUrlStage
  rcases hu : p.get? 3 with _ | u
  · exact guardedAux_of_mutationFree a
      [Event.err "Invalid URL. Please enter a valid URL."] (by decide)
  · dsimp only
    by_cases hv : isValidUrl u = true
    · rw [if_pos hv]
      exact initRepo_then_guarded w u s _ a
    · rw [if_neg hv]
      exact guardedAux_of_mutationFree a
        [Event.err "Invalid URL. Please enter a valid URL."] (by decide)

/-- The whole `init` branch is guarded: no mutation happens before the
process-guard authorizes it. -/
theorem initBranch_guarded (w : World) (p : List String) (s : St) (a : Bool) :
    guardedAux a (initBranch w p s).trace = true := by
  unfold initBranch
  rcases hcg : confirmGo initQ (some YN.n) s.stdin with ⟨tr1, rest1, ans⟩
  have hq1 : tr1.all isQuestion = true := by
    have := confirmGo_questions initQ (some YN.n) s.stdin
    rw [hcg] at this
    exact this
  have hm1 := questions_mutationFree hq1
  have hn1 := questions_noAuth hq1
  rcases ans with _ | aY
  · rw [confirmR_blocked hcg]
    simp only [Res.bind_halt]
    exact guardedAux_of_mutationFree a tr1 hm1
  · rw [confirmR_ok hcg]
    simp only [Res.bind_ok]
    by_cases hy : aY = some YN.y
    · rw [if_pos hy, Res.trace_withTrace, guardedAux_append_free a _ _ hm1 hn1]
      by_cases hg : w.gitStatusOk
      · rw [if_pos hg]
        rcases hcg2 : confirmGo overwriteQ (some YN.n) rest1 with ⟨tr2, rest2, ans2⟩
        have hq2 : tr2.all isQuestion = true := by
          have := confirmGo_questions overwriteQ (some YN.n) rest1
          rw [hcg2] at this
          exact this
        have hm2 := questions_mutationFree hq2
        have hn2 := questions_noAuth hq2
        rcases ans2 with _ | bY
        · rw [confirmR_blocked hcg2]
          simp only [Res.bind_halt]
          exact guardedAux_of_mutationFree a tr2 hm2
        · rw [confirmR_ok hcg2]
          simp only [Res.bind_ok]
          by_cases hb : bY = some YN.y
          · rw [if_pos hb, Res.trace_bind_withTrace, guardedAux_append_free a _ _ hm2 hn2]
            simp only [Res.bind_ok, Res.trace_withTrace, List.nil_append]
            exact initUrlStage_guarded w p _ a
          · rw [if_neg hb]
            simp only [Res.withTrace_halt, List.append_nil, Res.bind_halt]
            exact guardedAux_of_mutationFree a tr2 hm2
      · rw [if_neg hg]
        simp only [Res.bind_ok, Res.trace_withTrace, List.nil_append]
        exact initUrlStage_guarded w p _ a
    · rw [if_neg hy]
      simp only [Res.withTrace_halt, List.append_nil]
      exact guardedAux_of_mutationFree a tr1 hm1

/-- The whole `clone` branch is guarded: the backup rename, directory
recreation and clone all come after the process-guard authorizes them. -/
theorem cloneBranch_guarded (w : World) (p : List String) (s : St) (a : Bool) :
    guardedAux a (cloneBranch w p s).trace = true := by
  unfold cloneBranch
  rcases hu : p.get? 3 with _ | u
  · exact guardedAux_of_mutationFree a
      [Event.err "No URL provided. Invocation: `curasync clone [repo url]`"] (by decide)
  · dsimp only
    by_cases h0 : u = ""
    · rw [if_pos h0]
      exact guardedAux_of_mutationFree a
        [Event.err "No URL provided. Invocation: `curasync clone [repo url]`"] (by decide)
    · rw [if_neg h0]
      by_cases hv : isValidUrl u = true
      · rw [if_neg (by simp [hv])]
        rcases hcg : confirmGo cloneQ (some YN.n) s.stdin with ⟨tr1, rest1, ans⟩
        have hq1 : tr1.all isQuestion = true := by
          have := confirmGo_questions cloneQ (some YN.n) s.stdin
          rw [hcg] at this
          exact this
        have hm1 := questions_mutationFree hq1
        have hn1 := questions_noAuth hq1
        rcases ans with _ | aY
        · rw [confirmR_blocked hcg]
          simp only [Res.bind_halt]
          exact guardedAux_of_mutationFree a tr1 hm1
        · rw [confirmR_ok hcg]
          simp only [Res.bind_ok]
          by_cases hy : aY = some YN.y
          · rw [if_pos hy, Res.trace_withTrace, guardedAux_append_free a _ _ hm1 hn1]
            rcases cakc_cases w ⟨rest1, s.oks⟩ with ⟨tr2, o, h, hm⟩ | ⟨tr2, s2, h, hm⟩ |
              ⟨tr2, s2, h, hm, ha⟩
            · rw [h]
              simp only [Res.bind_halt]
              exact guardedAux_of_mutationFree a tr2 hm
            · rw [h]
              simp only [Res.bind_ok]
              rw [if_neg (by decide : ¬(false = true))]
              simp only [Res.withTrace_halt, List.append_nil]
              exact guardedAux_of_mutationFree a tr2 hm
            · rw [h]
              simp only [Res.bind_ok]
              rw [if_pos (by trivial)]
              rw [Res.trace_withTrace]
              exact guardedAux_append_auth a tr2 _ hm ha
          · rw [if_neg hy]
            simp only [Res.withTrace_halt, List.append_nil]
            exact guardedAux_of_mutationFree a tr1 hm1
      · rw [if_pos (by simp [hv])]
        exact guardedAux_of_mutationFree a
          [Event.err ("Invalid URL provided for clone operation: " ++ u)] (by rfl)

/-- C7: in every execution of `init` or `clone`, no mutation of the
configuration directory or its version-control state occurs while the
companion process may be running: every mutation event in the trace is
preceded by a companion-process lookup that found no process, or by a
successful termination of it. -/
theorem init_clone_guarded (w : World) (p : List String)
    (hp : parseArgsStrict w.argv = some p)
    (hcmd : p.get? 2 = some "init" ∨ p.get? 2 = some "clone") :
    guarded (runProgram w).trace = true := by
  rcases startup_cases w ⟨w.stdin, w.execOks⟩ with hs | ⟨tr, m, hs, _, hmf, _⟩
  · rcases hcmd with h | h
    · have hrw : runProgram w =
          ⟨[Event.exec "git" ["--version"] none,
            Event.exec "git" ["status"] (some (curaDir w))] ++
             (initBranch w p ⟨w.stdin, w.execOks⟩).toRun.trace,
           (initBranch w p ⟨w.stdin, w.execOks⟩).toRun.outcome⟩ := by
        unfold runProgram
        rw [hs]
        simp only [Res.bind_ok]
        rw [Res.toRun_withTrace, mainFn_dispatch w p "init" _ hp h, dispatch_init w p _ h]
      rw [hrw]
      dsimp only
      unfold guarded
      rw [guardedAux_append_free false _ _ (by rfl) (by rfl), Res.toRun_trace]
      exact initBranch_guarded w p _ false
    · have hrw : runProgram w =
          ⟨[Event.exec "git" ["--version"] none,
            Event.exec "git" ["status"] (some (curaDir w))] ++
             (cloneBranch w p ⟨w.stdin, w.execOks⟩).toRun.trace,
           (cloneBranch w p ⟨w.stdin, w.execOks⟩).toRun.outcome⟩ := by
        unfold runProgram
        rw [hs]
        simp only [Res.bind_ok]
        rw [Res.toRun_withTrace, mainFn_dispatch w p "clone" _ hp h, dispatch_clone w p _ h]
      rw [hrw]
      dsimp only
      unfold guarded
      rw [guardedAux_append_free false _ _ (by rfl) (by rfl), Res.toRun_trace]
      exact cloneBranch_guarded w p _ false
  · have hrw : runProgram w = ⟨tr, .thrown m⟩ := by
      unfold runProgram
      rw [hs]
      rfl
    rw [hrw]
    exact guardedAux_of_mutationFree false tr hmf

/-- C7 witness: the concrete successful clone run's trace is guarded. -/
theorem init_clone_guarded_witness :
    guarded (runProgram wClone).trace = true :=
  init_clone_guarded wClone
    ["/usr/bin/bun", "/app/index.ts", "clone", "https://example.com/cura.git"]
    rfl (Or.inr rfl)

end Curasync
